import Mathlib

/-!
Verification development for the tool-orchestration layer in
`talk2mcp.py` (plan parsing, dependency resolution, chain execution, and
the response-handling part of `process_user_request`).

Modelling conventions:
* Python strings are Lean `String`s; most functions work over `List Char`
  and are wrapped at the edges.
* The character classes `\s`, `\d`, `\w` of Python's `re` module and the
  whitespace set of `str.strip` are modelled by their ASCII parts (all
  inputs in the repository's plans are ASCII).
* `json.loads` is modelled by an executable recursive-descent parser over
  a JSON value type (`JsonV`); JSON numbers are modelled as integers and
  string escapes are not interpreted (a string containing a backslash
  fails to parse).  Python `dict`s keep insertion order and overwrite
  duplicate keys in place, which `upsert` reproduces.
* The MCP tool host is out of scope in the source (a black-box RPC peer);
  it is modelled as a function from tool name and argument to either a
  result text or an error message, covering `session.call_tool` together
  with the `result.content[0].text` extraction (any of whose failures the
  source catches as one `Exception`).
* Executions additionally return the final `results` store and the list
  of tool invocations actually performed, pure instrumentation used to
  state "no further steps run" / "results are not rolled back".
-/

set_option maxRecDepth 4096

namespace Talk2MCP

/-- ASCII part of Python's regex `\s` class and of the default
`str.strip` whitespace set. -/
def pyIsSpace (c : Char) : Bool :=
  c = ' ' || c = '\t' || c = '\n' || c = '\r' || c = '\x0b' || c = '\x0c'

/-- ASCII part of Python's regex `\d` class. -/
def pyIsDigit (c : Char) : Bool :=
  '0' ≤ c && c ≤ '9'

/-- ASCII part of Python's regex `\w` class. -/
def isWordChar (c : Char) : Bool :=
  ('a' ≤ c && c ≤ 'z') || ('A' ≤ c && c ≤ 'Z') || ('0' ≤ c && c ≤ '9') || c = '_'

/-- Boolean "the first list starts the second" test on character lists
(the semantics of Python's `str.startswith` for ASCII strings). -/
def listIsPre : List Char → List Char → Bool
  | [], _ => true
  | _ :: _, [] => false
  | a :: as, b :: bs => a = b && listIsPre as bs

/-- Python `str.startswith`. -/
def pyStartsWith (s pre : String) : Bool :=
  listIsPre pre.toList s.toList

/-- Boolean substring test: some suffix of `s` starts with `pat`. -/
def listHasSub (s pat : List Char) : Bool :=
  match s with
  | [] => listIsPre pat []
  | _ :: rest => listIsPre pat s || listHasSub rest pat

/-- Substring containment on strings (Python's `in` on `str`). -/
def strHasSub (s pat : String) : Bool :=
  listHasSub s.toList pat.toList

/-- Python `str.strip()` on character lists: drop leading and trailing
whitespace. -/
def listStrip (l : List Char) : List Char :=
  ((l.dropWhile pyIsSpace).reverse.dropWhile pyIsSpace).reverse

/-- Python `str.strip()`. -/
def pyStrip (s : String) : String :=
  ⟨listStrip s.toList⟩

/-- Python `str.split('\n')` on character lists: pieces between newline
characters; the empty input yields one empty piece. -/
def splitLines : List Char → List (List Char)
  | [] => [[]]
  | c :: rest =>
    if c = '\n' then [] :: splitLines rest
    else
      match splitLines rest with
      | l :: ls => (c :: l) :: ls
      | [] => [[c]]

/-- Numeric value of a digit string (Python `int` on a `\d+` match). -/
def natOfDigits (ds : List Char) : Nat :=
  ds.foldl (fun a c => a * 10 + (c.toNat - '0'.toNat)) 0

/-- Replace every occurrence of the non-empty token `tok` by the empty
string, scanning left to right without overlap (fuel-indexed helper for
Python's `str.replace(tok, "")`). -/
def removeTokFuel (tok : List Char) : Nat → List Char → List Char
  | 0, s => s
  | _ + 1, [] => []
  | fuel + 1, c :: rest =>
    if listIsPre tok (c :: rest) then
      removeTokFuel tok fuel ((c :: rest).drop tok.length)
    else
      c :: removeTokFuel tok fuel rest

/-- Python `s.replace(tok, "")` for a non-empty token. -/
def pyRemoveAll (s tok : String) : String :=
  ⟨removeTokFuel tok.toList s.toList.length s.toList⟩

/-! ### JSON values and `json.loads` -/

/-- JSON values as produced by `json.loads` (numbers restricted to
integers). -/
inductive JsonV where
  | null : JsonV
  | bool (b : Bool) : JsonV
  | num (n : Int) : JsonV
  | str (s : String) : JsonV
  | arr (xs : List JsonV) : JsonV
  | obj (kvs : List (String × JsonV)) : JsonV

/-- Insert or overwrite a key in an association list, keeping the
original position of an existing key (Python `dict` assignment). -/
def upsert (kvs : List (String × JsonV)) (k : String) (v : JsonV) :
    List (String × JsonV) :=
  match kvs with
  | [] => [(k, v)]
  | (k', v') :: rest =>
    if k' = k then (k', v) :: rest else (k', v') :: upsert rest k v

/-- JSON whitespace accepted between tokens by `json.loads`. -/
def jsonWs (c : Char) : Bool :=
  c = ' ' || c = '\t' || c = '\n' || c = '\r'

/-- Read the body of a JSON string after the opening quote, up to the
closing quote; escape sequences are not supported (a backslash fails). -/
def strChars : List Char → Option (List Char × List Char)
  | [] => none
  | '"' :: rest => some ([], rest)
  | '\\' :: _ => none
  | c :: rest =>
    match strChars rest with
    | some (s, r) => some (c :: s, r)
    | none => none

/-- Maximal digit run split, requiring at least one digit. -/
def digitsSplit (cs : List Char) : Option (List Char × List Char) :=
  match cs.takeWhile pyIsDigit with
  | [] => none
  | ds => some (ds, cs.dropWhile pyIsDigit)

mutual

/-- Recursive-descent JSON value parser (model of `json.loads`), fuel
indexed; returns the value and the unconsumed remainder. -/
def parseVal : Nat → List Char → Option (JsonV × List Char)
  | 0, _ => none
  | fuel + 1, cs =>
    match cs.dropWhile jsonWs with
    | '{' :: rest =>
      (match rest.dropWhile jsonWs with
       | '}' :: rest2 => some (.obj [], rest2)
       | _ => parseMembers fuel rest [])
    | '[' :: rest =>
      (match rest.dropWhile jsonWs with
       | ']' :: rest2 => some (.arr [], rest2)
       | _ => parseElems fuel rest [])
    | '"' :: rest =>
      (match strChars rest with
       | some (s, r) => some (.str ⟨s⟩, r)
       | none => none)
    | 't' :: 'r' :: 'u' :: 'e' :: rest => some (.bool true, rest)
    | 'f' :: 'a' :: 'l' :: 's' :: 'e' :: rest => some (.bool false, rest)
    | 'n' :: 'u' :: 'l' :: 'l' :: rest => some (.null, rest)
    | '-' :: rest =>
      (match digitsSplit rest with
       | some (ds, r) => some (.num (-(natOfDigits ds : Int)), r)
       | none => none)
    | cs2 =>
      (match digitsSplit cs2 with
       | some (ds, r) => some (.num (natOfDigits ds : Int), r)
       | none => none)

/-- Parse the members of a JSON object after the opening brace. -/
def parseMembers : Nat → List Char → List (String × JsonV) →
    Option (JsonV × List Char)
  | 0, _, _ => none
  | fuel + 1, cs, acc =>
    match cs.dropWhile jsonWs with
    | '"' :: rest =>
      (match strChars rest with
       | none => none
       | some (k, rest1) =>
         match rest1.dropWhile jsonWs with
         | ':' :: rest2 =>
           (match parseVal fuel rest2 with
            | none => none
            | some (v, rest3) =>
              let acc2 := upsert acc ⟨k⟩ v
              match rest3.dropWhile jsonWs with
              | ',' :: rest4 => parseMembers fuel rest4 acc2
              | '}' :: rest4 => some (.obj acc2, rest4)
              | _ => none)
         | _ => none)
    | _ => none

/-- Parse the elements of a JSON array after the opening bracket. -/
def parseElems : Nat → List Char → List JsonV → Option (JsonV × List Char)
  | 0, _, _ => none
  | fuel + 1, cs, acc =>
    match parseVal fuel cs with
    | none => none
    | some (v, rest) =>
      let acc2 := acc ++ [v]
      match rest.dropWhile jsonWs with
      | ',' :: rest2 => parseElems fuel rest2 acc2
      | ']' :: rest2 => some (.arr acc2, rest2)
      | _ => none

end

/-- Model of `json.loads`: parse a whole string as one JSON value,
allowing surrounding whitespace and rejecting trailing garbage. -/
def parseJson (s : String) : Option JsonV :=
  match parseVal (2 * s.toList.length + 2) s.toList with
  | some (v, rest) => if (rest.dropWhile jsonWs).isEmpty then some v else none
  | none => none

/-! ### Python value semantics over `JsonV` -/

mutual

/-- Python `repr` of a value decoded from JSON (string escapes inside
`repr` of a string are not reproduced). -/
def pyRepr : JsonV → String
  | .null => "None"
  | .bool true => "True"
  | .bool false => "False"
  | .num n => toString n
  | .str s => "'" ++ s ++ "'"
  | .arr xs => "[" ++ String.intercalate ", " (pyReprList xs) ++ "]"
  | .obj kvs => "\x7b" ++ String.intercalate ", " (pyReprKVs kvs) ++ "\x7d"

/-- Python `repr` of each element of a list. -/
def pyReprList : List JsonV → List String
  | [] => []
  | x :: xs => pyRepr x :: pyReprList xs

/-- Python `repr` of each `key: value` entry of a dict. -/
def pyReprKVs : List (String × JsonV) → List String
  | [] => []
  | (k, v) :: kvs => ("'" ++ k ++ "': " ++ pyRepr v) :: pyReprKVs kvs

end

/-- Python `str` of a value decoded from JSON (as used by an f-string). -/
def pyStr : JsonV → String
  | .str s => s
  | j => pyRepr j

/-- Python type name of a value decoded from JSON. -/
def pyTypeName : JsonV → String
  | .null => "NoneType"
  | .bool _ => "bool"
  | .num _ => "int"
  | .str _ => "str"
  | .arr _ => "list"
  | .obj _ => "dict"

/-- Python truthiness of a value decoded from JSON. -/
def pyTruthy : JsonV → Bool
  | .null => false
  | .bool b => b
  | .num n => n ≠ 0
  | .str s => !s.toList.isEmpty
  | .arr xs => !xs.isEmpty
  | .obj kvs => !kvs.isEmpty

/-- Python's `key in value` for a string key: key membership on a dict,
substring test on a string, element equality on a list, and a
`TypeError` on the remaining types. -/
def pyInJson (key : String) : JsonV → Except String Bool
  | .obj kvs => .ok (kvs.lookup key).isSome
  | .str s => .ok (strHasSub s key)
  | .arr xs =>
    .ok (xs.any fun j => match j with | .str s => s = key | _ => false)
  | j => .error ("argument of type '" ++ pyTypeName j ++ "' is not iterable")

/-- Python's `value[key]` for a string key: dict lookup (`KeyError` when
missing, whose `str` is the quoted key), `TypeError` on other types. -/
def pyGetItem (j : JsonV) (key : String) : Except String JsonV :=
  match j with
  | .obj kvs =>
    match kvs.lookup key with
    | some v => .ok v
    | none => .error ("'" ++ key ++ "'")
  | .str _ => .error "string indices must be integers"
  | .arr _ => .error "list indices must be integers or slices, not str"
  | .num _ => .error "'int' object is not subscriptable"
  | .bool _ => .error "'bool' object is not subscriptable"
  | .null => .error "'NoneType' object is not subscriptable"

/-! ### The step-line pattern of `execute_tool_chain`

`re.search(r'STEP\s+(\d+):\s+Use\s+(\w+)\s+with\s+input:\s+(.+)', line)`
is modelled by `searchStep`: `matchStepAt` matches the pattern anchored
at a position, and `searchStep` tries it at each position left to right.
Since each character class of the pattern is disjoint from its successor,
greedy matching with backtracking takes exactly the maximal run at every
class, except for the final `\s+(.+)` where a single backtracking step
can hand the last whitespace character to the group. -/

/-- Consume the literal `pat` at the head of `cs`. -/
def lit : List Char → List Char → Option (List Char)
  | [], cs => some cs
  | _ :: _, [] => none
  | p :: ps, c :: cs => if c = p then lit ps cs else none

/-- Consume a maximal non-empty run of whitespace (`\s+`). -/
def chompWs1 (cs : List Char) : Option (List Char) :=
  if (cs.takeWhile pyIsSpace).isEmpty then none
  else some (cs.dropWhile pyIsSpace)

/-- Consume a maximal non-empty run of characters of class `p`,
returning the run and the remainder (`\d+`, `\w+`). -/
def takeClass1 (p : Char → Bool) (cs : List Char) :
    Option (List Char × List Char) :=
  if (cs.takeWhile p).isEmpty then none
  else some (cs.takeWhile p, cs.dropWhile p)

/-- Last character of a list, with a default for the empty list. -/
def lastCharD : List Char → Char → Char
  | [], d => d
  | [c], _ => c
  | _ :: c :: rest, d => lastCharD (c :: rest) d

/-- The final `\s+(.+)` of the pattern: at least one whitespace
character, then the group takes the rest of the line; when only
whitespace remains, backtracking leaves the last whitespace character
to the group (so at least two characters must remain). -/
def tailGroup (cs : List Char) : Option (List Char) :=
  let w := cs.takeWhile pyIsSpace
  let r := cs.dropWhile pyIsSpace
  if w.isEmpty then none
  else if r.isEmpty then
    (if 2 ≤ w.length then some [lastCharD w ' '] else none)
  else some r

/-- The step pattern anchored at the head of `cs`: on success, the step
number (`int` of the `\d+` group), the tool-name group and the raw input
group. -/
def matchStepAt (cs : List Char) : Option (Nat × List Char × List Char) := do
  let cs1 ← lit "STEP".toList cs
  let cs2 ← chompWs1 cs1
  let (ds, cs3) ← takeClass1 pyIsDigit cs2
  let cs4 ← lit [':'] cs3
  let cs5 ← chompWs1 cs4
  let cs6 ← lit "Use".toList cs5
  let cs7 ← chompWs1 cs6
  let (tool, cs8) ← takeClass1 isWordChar cs7
  let cs9 ← chompWs1 cs8
  let cs10 ← lit "with".toList cs9
  let cs11 ← chompWs1 cs10
  let cs12 ← lit "input:".toList cs11
  let inp ← tailGroup cs12
  return (natOfDigits ds, tool, inp)

/-- `re.search`: the pattern match at the leftmost position where one
starts. -/
def searchStep : List Char → Option (Nat × List Char × List Char)
  | [] => none
  | c :: rest =>
    match matchStepAt (c :: rest) with
    | some r => some r
    | none => searchStep rest

/-- One parsed plan step (`steps.append({...})` in `execute_tool_chain`,
lines 70-74 of `talk2mcp.py`). -/
structure PlanStep where
  step : Nat
  tool : String
  input : String
deriving DecidableEq

/-- One line of the plan: the `line.startswith("STEP")` gate, then the
`re.search` pattern; the input group is stripped. -/
def parseLineChars (line : List Char) : Option PlanStep :=
  if listIsPre "STEP".toList line then
    match searchStep line with
    | some (n, t, i) => some ⟨n, ⟨t⟩, ⟨listStrip i⟩⟩
    | none => none
  else none

/-- The Format-A plan parser of `execute_tool_chain` (lines 63-74):
strip the whole text, split on newlines, keep the lines the pattern
matches. -/
def parsePlanSteps (tool_plan : String) : List PlanStep :=
  (splitLines (listStrip tool_plan.toList)).filterMap parseLineChars

/-! ### Dependency resolution and chain execution -/

/-- The tool host (`session.call_tool` followed by the
`result.content[0].text` extraction): tool name and `text` argument to
either the result text or the message of the raised exception. -/
abbrev ToolHost := String → JsonV → Except String String

/-- The `results` dict of `execute_tool_chain`, keyed by `RESULT_<n>`
tokens; assignments cons to the front, so `List.lookup` sees the newest
binding first, as a Python dict update would. -/
abbrev Store := List (String × String)

/-- Outcome of the `for item in result_json["content"]` scan: the first
`item["text"]` hit (`break`), loop exhaustion, or a `TypeError` raised
by `"text" in item` / `item["text"]` on a non-dict item (caught by the
surrounding `except`). -/
inductive ScanFound where
  | found (v : JsonV)
  | exhausted
  | raised

/-- The content scan of `execute_tool_chain` lines 102-106, with
Python's `in`/`[]` semantics per item. -/
def scanContent : List JsonV → ScanFound
  | [] => .exhausted
  | item :: rest =>
    match item with
    | .obj kvs =>
      (match kvs.lookup "text" with
       | some v => .found v
       | none => scanContent rest)
    | .str s => if strHasSub s "text" then .raised else scanContent rest
    | .arr xs =>
      if xs.any (fun j => match j with | .str s => s = "text" | _ => false)
      then .raised else scanContent rest
    | _ => .raised

/-- Payload unwrapping (lines 95-109): if the stored value, after
stripping, starts with `{`, parse it as JSON and take the first `text`
entry of a top-level `content` list; any parse failure, wrong shape or
raised `TypeError`/`KeyError` keeps the original string. -/
def tryUnwrap (v : String) : JsonV :=
  if pyStartsWith (pyStrip v) "\x7b" then
    match parseJson v with
    | some (.obj kvs) =>
      (match kvs.lookup "content" with
       | some (.arr items) =>
         (match scanContent items with
          | .found t => t
          | _ => .str v)
       | _ => .str v)
    | _ => .str v
  else .str v

/-- Dependency resolution (lines 88-112): an input starting with
`RESULT_` is looked up verbatim in the store (an absent key is the fatal
per-step error carrying the key); any other input passes through as a
literal string. -/
def resolveInput (results : Store) (input : String) : Except String JsonV :=
  if pyStartsWith input "RESULT_" then
    match results.lookup input with
    | some v => .ok (tryUnwrap v)
    | none => .error input
  else .ok (.str input)

/-- Return value of `execute_tool_chain`: the no-steps message, the two
error strings, the last successful result, or Python `None` (only
reachable when the loop body never ran, which the no-steps guard
prevents). -/
inductive ChainOutcome where
  | noSteps
  | unresolvedRef (key : String)
  | toolError (tool msg : String)
  | success (finalResult : String)
  | pyNone
deriving DecidableEq

/-- The exact strings `execute_tool_chain` returns. -/
def renderOutcome : ChainOutcome → String
  | .noSteps => "No valid tool steps found in the plan."
  | .unresolvedRef k => "Error: Referenced result " ++ k ++ " not found"
  | .toolError t m => "Error executing " ++ t ++ ": " ++ m
  | .success s => s
  | .pyNone => "None"

/-- The Python value `execute_tool_chain` returns (`None` for `pyNone`,
a string otherwise). -/
def chainReturn : ChainOutcome → JsonV
  | .pyNone => .null
  | o => .str (renderOutcome o)

/-- Result of a chain execution: the outcome together with the final
`results` store and the sequence of tool invocations performed (the
latter two are instrumentation; the source returns only the outcome). -/
structure ChainResult where
  outcome : ChainOutcome
  results : Store
  calls : List (String × JsonV)

/-- The step loop of `execute_tool_chain` (lines 83-126) over an
already sorted step list. -/
def runLoop (host : ToolHost) :
    List PlanStep → Store → Option String → List (String × JsonV) → ChainResult
  | [], results, finalRes, calls =>
    { outcome := match finalRes with
        | some s => .success s
        | none => .pyNone,
      results := results, calls := calls }
  | st :: rest, results, _, calls =>
    match resolveInput results st.input with
    | .error key => { outcome := .unresolvedRef key, results := results, calls := calls }
    | .ok inp =>
      match host st.tool inp with
      | .error msg =>
        { outcome := .toolError st.tool msg, results := results,
          calls := calls ++ [(st.tool, inp)] }
      | .ok resText =>
        runLoop host rest (("RESULT_" ++ toString st.step, resText) :: results)
          (some resText) (calls ++ [(st.tool, inp)])

/-- `sorted(steps, key=lambda x: x["step"])`: Python's stable ascending
sort, modelled by stable insertion sort on the step number. -/
def sortSteps (steps : List PlanStep) : List PlanStep :=
  List.insertionSort (fun a b => a.step ≤ b.step) steps

/-- `execute_tool_chain` (lines 58-128): parse the plan, bail out when
no line matched, else run the steps in ascending step order. -/
def execute_tool_chain (host : ToolHost) (tool_plan : String) : ChainResult :=
  let steps := parsePlanSteps tool_plan
  if steps.isEmpty then { outcome := .noSteps, results := [], calls := [] }
  else runLoop host (sortSteps steps) [] none []

/-! ### Response handling of `process_user_request` (lines 249-294)

The LLM call and the transport are external; the model takes the
planner's raw response text.  Exceptions other than
`json.JSONDecodeError` escape the inner handler and are caught by
`except Exception as e: return f"Error: {str(e)}"`. -/

/-- Serialization of one Format-B step entry back into a Format-A line
(line 268): f-string field accesses in source order, each raising
`KeyError` on a missing key. -/
def formatLine (item : JsonV) : Except String String := do
  let n ← pyGetItem item "step_number"
  let t ← pyGetItem item "tool_name"
  let i ← pyGetItem item "input"
  return "STEP " ++ pyStr n ++ ": Use " ++ pyStr t ++ " with input: " ++ pyStr i

/-- Serialization of a list of Format-B step entries, stopping at the
first raised exception. -/
def formatLines : List JsonV → Except String (List String)
  | [] => .ok []
  | item :: rest => do
    let l ← formatLine item
    let ls ← formatLines rest
    return l :: ls

/-- The whole `for step in response_json["steps"]` loop (lines 266-268)
with Python iteration semantics: a list iterates its elements, a string
its characters and a dict its keys (subscripting those raises
`TypeError`), other types are not iterable. -/
def formatSteps : JsonV → Except String (List String)
  | .arr items => formatLines items
  | .str s =>
    if s.toList.isEmpty then .ok []
    else .error "string indices must be integers"
  | .obj kvs =>
    if kvs.isEmpty then .ok []
    else .error "string indices must be integers"
  | j => .error ("'" ++ pyTypeName j ++ "' object is not iterable")

/-- The steps branch shared by both `response_json` tests (lines
263-278): `"steps" in response_json and response_json["steps"]`, then
serialize and run the chain, else the no-valid-steps message. -/
def stepsBranch (host : ToolHost) (rj : JsonV) : JsonV × List (String × JsonV) :=
  match pyInJson "steps" rj with
  | .error m => (.str ("Error: " ++ m), [])
  | .ok false => (.str "No valid steps found in the LLM response.", [])
  | .ok true =>
    match pyGetItem rj "steps" with
    | .error m => (.str ("Error: " ++ m), [])
    | .ok stepsV =>
      if pyTruthy stepsV then
        match formatSteps stepsV with
        | .error m => (.str ("Error: " ++ m), [])
        | .ok lines =>
          let r := execute_tool_chain host (String.intercalate "\n" lines)
          (chainReturn r.outcome, r.calls)
      else (.str "No valid steps found in the LLM response.", [])

/-- Response handling of `process_user_request` (lines 249-294): strip
the response text, try JSON (fallback first, then steps); on a JSON
parse failure fall back to the `NO_TOOLS_NEEDED:` escape and then to the
Format-A chain.  Returns the Python return value and the tool
invocations performed. -/
def process_llm_response (host : ToolHost) (raw : String) :
    JsonV × List (String × JsonV) :=
  let response_text := pyStrip raw
  match parseJson response_text with
  | some rj =>
    (match pyInJson "fallback_response" rj with
     | .error m => (.str ("Error: " ++ m), [])
     | .ok false => stepsBranch host rj
     | .ok true =>
       match pyGetItem rj "fallback_response" with
       | .error m => (.str ("Error: " ++ m), [])
       | .ok fb => if pyTruthy fb then (fb, []) else stepsBranch host rj)
  | none =>
    if pyStartsWith response_text "NO_TOOLS_NEEDED:" then
      (.str (pyStrip (pyRemoveAll response_text "NO_TOOLS_NEEDED:")), [])
    else
      let r := execute_tool_chain host response_text
      (chainReturn r.outcome, r.calls)

/-! ### Spec-side definitions (for comparison with the source)

These definitions follow the specification's words, not the source; each
is used only to state how the source's behavior relates to the spec. -/

/-- Modelled from the spec: the Format-A line grammar of section 4.1, "a
line matches if it starts with the literal token `STEP` followed by an
integer, a colon, the literal `Use`, a tool-name token (word characters
only), the literal `with input:`, and trailing free text as the input" —
the step pattern anchored at the start of the line. -/
def specFormatALine (line : List Char) : Option (Nat × List Char × List Char) :=
  matchStepAt line

/-- Modelled from the spec: the number of lines of a plan text that
match the Format-A grammar. -/
def specGrammarLineCount (tool_plan : String) : Nat :=
  ((splitLines (listStrip tool_plan.toList)).filter
    (fun l => (specFormatALine l).isSome)).length

/-- Modelled from the spec: "the first content element with a `text`
field" of claim C4 — the first element that is an object carrying a
`text` key, and that key's value. -/
def specFirstText (items : List JsonV) : Option JsonV :=
  items.findSome? fun j =>
    match j with
    | .obj kvs => kvs.lookup "text"
    | _ => none

/-! ### Concrete hosts used by witnesses and counterexamples -/

/-- A tool host that answers every call with the text `ok`. -/
def okHost : ToolHost := fun _ _ => .ok "ok"

/-- A tool host that raises on every call with message `boom`. -/
def boomHost : ToolHost := fun _ _ => .error "boom"

/-- A tool host that reverses the `text` argument when it is a string
(the repository's `reverse_string` tool). -/
def reverseHost : ToolHost := fun _ arg =>
  match arg with
  | .str s => .ok ⟨s.toList.reverse⟩
  | _ => .error "expected a string"

/-! ### Helper lemmas about the embedded functions -/

theorem lit_isPre {ps cs r : List Char} (h : lit ps cs = some r) :
    listIsPre ps cs = true := by
  induction ps generalizing cs with
  | nil => simp [listIsPre]
  | cons p ps ih =>
    cases cs with
    | nil => simp [lit] at h
    | cons c cs =>
      simp only [lit] at h
      split at h
      · next heq => simp [listIsPre, heq, ih h]
      · exact absurd h (by simp)

theorem lit_subset {ps cs r : List Char} (h : lit ps cs = some r) :
    ∀ c ∈ r, c ∈ cs := by
  induction ps generalizing cs with
  | nil =>
    simp only [lit, Option.some.injEq] at h
    subst h; exact fun _ hc => hc
  | cons p ps ih =>
    cases cs with
    | nil => simp [lit] at h
    | cons c cs =>
      simp only [lit] at h
      split at h
      · exact fun d hd => List.mem_cons_of_mem _ (ih h d hd)
      · exact absurd h (by simp)

theorem chompWs1_subset {cs r : List Char} (h : chompWs1 cs = some r) :
    ∀ c ∈ r, c ∈ cs := by
  unfold chompWs1 at h
  split at h
  · exact absurd h (by simp)
  · simp only [Option.some.injEq] at h
    subst h
    exact fun _ hc => (List.dropWhile_sublist _).subset hc

theorem takeClass1_inv {p : Char → Bool} {cs g r : List Char}
    (h : takeClass1 p cs = some (g, r)) :
    g = cs.takeWhile p ∧ r = cs.dropWhile p := by
  unfold takeClass1 at h
  split at h
  · exact absurd h (by simp)
  · simp only [Option.some.injEq, Prod.mk.injEq] at h
    exact ⟨h.1.symm, h.2.symm⟩

theorem lastCharD_mem {l : List Char} (d : Char) (h : l ≠ []) :
    lastCharD l d ∈ l := by
  induction l with
  | nil => exact absurd rfl h
  | cons c cs ih =>
    cases cs with
    | nil => simp [lastCharD]
    | cons c2 cs2 =>
      simp only [lastCharD]
      exact List.mem_cons_of_mem _ (ih (by simp))

theorem tailGroup_subset {cs i : List Char} (h : tailGroup cs = some i) :
    ∀ c ∈ i, c ∈ cs := by
  simp only [tailGroup] at h
  split at h
  · exact absurd h (by simp)
  · split at h
    · split at h
      · simp only [Option.some.injEq] at h
        subst h
        intro c hc
        simp only [List.mem_singleton] at hc
        subst hc
        refine (List.takeWhile_sublist _).subset (lastCharD_mem _ ?_)
        next hne _ _ => simpa [List.isEmpty_iff] using hne
      · exact absurd h (by simp)
    · simp only [Option.some.injEq] at h
      subst h
      exact fun _ hc => (List.dropWhile_sublist _).subset hc

theorem matchStepAt_isPre {cs : List Char} {r : Nat × List Char × List Char}
    (h : matchStepAt cs = some r) : listIsPre "STEP".toList cs = true := by
  simp only [matchStepAt, Option.bind_eq_bind, Option.bind_eq_some] at h
  obtain ⟨cs1, h1, -⟩ := h
  exact lit_isPre h1

theorem matchStepAt_groups {cs : List Char} {n : Nat} {t i : List Char}
    (h : matchStepAt cs = some (n, t, i)) :
    (∀ c ∈ t, isWordChar c = true) ∧ (∀ c ∈ i, c ∈ cs) := by
  simp only [matchStepAt, Option.bind_eq_bind, Option.bind_eq_some, Option.pure_def,
    Option.some.injEq] at h
  obtain ⟨cs1, h1, cs2, h2, ⟨ds, cs3⟩, h3, cs4, h4, cs5, h5, cs6, h6, cs7, h7,
    ⟨tool, cs8⟩, h8, cs9, h9, cs10, h10, cs11, h11, cs12, h12, inp, h13, hfin⟩ := h
  obtain ⟨-, ht, hi⟩ : natOfDigits ds = n ∧ tool = t ∧ inp = i := by
    simpa [Prod.ext_iff] using hfin
  subst ht hi
  have u1 : ∀ c ∈ cs1, c ∈ cs := lit_subset h1
  have u2 : ∀ c ∈ cs2, c ∈ cs := fun c hc => u1 _ (chompWs1_subset h2 _ hc)
  have u3 : ∀ c ∈ cs3, c ∈ cs := fun c hc => by
    have := (takeClass1_inv h3).2
    exact u2 _ (this ▸ hc |> (List.dropWhile_sublist _).subset)
  have u4 : ∀ c ∈ cs4, c ∈ cs := fun c hc => u3 _ (lit_subset h4 _ hc)
  have u5 : ∀ c ∈ cs5, c ∈ cs := fun c hc => u4 _ (chompWs1_subset h5 _ hc)
  have u6 : ∀ c ∈ cs6, c ∈ cs := fun c hc => u5 _ (lit_subset h6 _ hc)
  have u7 : ∀ c ∈ cs7, c ∈ cs := fun c hc => u6 _ (chompWs1_subset h7 _ hc)
  have u8 : ∀ c ∈ cs8, c ∈ cs := fun c hc => by
    have := (takeClass1_inv h8).2
    exact u7 _ (this ▸ hc |> (List.dropWhile_sublist _).subset)
  have u9 : ∀ c ∈ cs9, c ∈ cs := fun c hc => u8 _ (chompWs1_subset h9 _ hc)
  have u10 : ∀ c ∈ cs10, c ∈ cs := fun c hc => u9 _ (lit_subset h10 _ hc)
  have u11 : ∀ c ∈ cs11, c ∈ cs := fun c hc => u10 _ (chompWs1_subset h11 _ hc)
  have u12 : ∀ c ∈ cs12, c ∈ cs := fun c hc => u11 _ (lit_subset h12 _ hc)
  constructor
  · intro c hc
    have := (takeClass1_inv h8).1
    exact List.mem_takeWhile_imp (this ▸ hc)
  · exact fun c hc => u12 _ (tailGroup_subset h13 _ hc)

theorem searchStep_of_match {cs : List Char} {r : Nat × List Char × List Char}
    (h : matchStepAt cs = some r) : searchStep cs = some r := by
  cases cs with
  | nil =>
    rw [show matchStepAt ([] : List Char) = none from rfl] at h
    cases h
  | cons c rest => simp [searchStep, h]

theorem searchStep_inv {cs : List Char} {r : Nat × List Char × List Char}
    (h : searchStep cs = some r) :
    ∃ cs2, (∀ c ∈ cs2, c ∈ cs) ∧ matchStepAt cs2 = some r := by
  induction cs with
  | nil => simp [searchStep] at h
  | cons c rest ih =>
    simp only [searchStep] at h
    split at h
    · next hm =>
      simp only [Option.some.injEq] at h
      subst h
      exact ⟨c :: rest, fun _ hc => hc, hm⟩
    · obtain ⟨cs2, hsub, hm⟩ := ih h
      exact ⟨cs2, fun d hd => List.mem_cons_of_mem _ (hsub d hd), hm⟩

theorem splitLines_no_newline {cs : List Char} :
    ∀ l ∈ splitLines cs, '\n' ∉ l := by
  induction cs with
  | nil => simp [splitLines]
  | cons c rest ih =>
    simp only [splitLines]
    split
    · intro l hl
      rcases List.mem_cons.mp hl with rfl | hl
      · simp
      · exact ih l hl
    · next hne =>
      cases hsp : splitLines rest with
      | nil =>
        intro l hl
        rcases List.mem_cons.mp hl with rfl | hl2
        · intro hmem
          rcases List.mem_cons.mp hmem with heq | hmem2
          · exact hne heq.symm
          · simp at hmem2
        · simp at hl2
      | cons l0 ls =>
        intro l hl
        rcases List.mem_cons.mp hl with rfl | hl
        · intro hmem
          rcases List.mem_cons.mp hmem with rfl | hmem
          · exact hne rfl
          · exact ih l0 (hsp ▸ List.mem_cons_self _ _) hmem
        · exact ih l (hsp ▸ List.mem_cons_of_mem _ hl)

theorem listStrip_subset {l : List Char} : ∀ c ∈ listStrip l, c ∈ l := by
  intro c hc
  unfold listStrip at hc
  rw [List.mem_reverse] at hc
  have hc2 := (List.dropWhile_sublist _).subset hc
  rw [List.mem_reverse] at hc2
  exact (List.dropWhile_sublist _).subset hc2

/-- Every step the Format-A parser produces has a tool name of word
characters only and an input free of newlines. -/
theorem parsePlanSteps_shape {text : String} {st : PlanStep}
    (h : st ∈ parsePlanSteps text) :
    (∀ c ∈ st.tool.toList, isWordChar c = true) ∧ '\n' ∉ st.input.toList := by
  unfold parsePlanSteps at h
  rw [List.mem_filterMap] at h
  obtain ⟨line, hline, hparse⟩ := h
  unfold parseLineChars at hparse
  split at hparse
  · have hnl : '\n' ∉ line := splitLines_no_newline line hline
    cases hs : searchStep line with
    | none => rw [hs] at hparse; cases hparse
    | some r =>
      rw [hs] at hparse
      obtain ⟨n, t, i⟩ := r
      simp only [Option.some.injEq] at hparse
      subst hparse
      obtain ⟨cs2, hsub, hm⟩ := searchStep_inv hs
      obtain ⟨hword, hmem⟩ := matchStepAt_groups hm
      refine ⟨fun c hc => hword c hc, fun hbad => ?_⟩
      exact hnl (hsub _ (hmem _ (listStrip_subset _ hbad)))
  · cases hparse

theorem runLoop_calls_extend (host : ToolHost) (l : List PlanStep)
    (store : Store) (fr : Option String) (calls : List (String × JsonV)) :
    ∃ tl, (runLoop host l store fr calls).calls = calls ++ tl := by
  induction l generalizing store fr calls with
  | nil => exact ⟨[], by simp [runLoop]⟩
  | cons st rest ih =>
    cases hres : resolveInput store st.input with
    | error k => exact ⟨[], by simp [runLoop, hres]⟩
    | ok inp =>
      cases hh : host st.tool inp with
      | error m => exact ⟨[(st.tool, inp)], by simp [runLoop, hres, hh]⟩
      | ok s =>
        obtain ⟨tl, htl⟩ :=
          ih (("RESULT_" ++ toString st.step, s) :: store) (some s)
            (calls ++ [(st.tool, inp)])
        exact ⟨(st.tool, inp) :: tl, by simp [runLoop, hres, hh, htl]⟩

theorem runLoop_all_ok_length (host : ToolHost) (l : List PlanStep)
    (hlit : ∀ st ∈ l, pyStartsWith st.input "RESULT_" = false)
    (hok : ∀ t i, ∃ s, host t i = Except.ok s) :
    ∀ store fr calls,
      (runLoop host l store fr calls).calls.length = calls.length + l.length := by
  induction l with
  | nil => intro store fr calls; simp [runLoop]
  | cons st rest ih =>
    intro store fr calls
    have hres : resolveInput store st.input = .ok (.str st.input) := by
      unfold resolveInput
      rw [hlit st (List.mem_cons_self _ _)]
      simp
    obtain ⟨s, hs⟩ := hok st.tool (.str st.input)
    simp only [runLoop, hres, hs]
    rw [ih (fun st2 h2 => hlit st2 (List.mem_cons_of_mem _ h2))]
    simp [Nat.add_comm, Nat.add_assoc, Nat.add_left_comm]

instance : IsTotal PlanStep (fun a b => a.step ≤ b.step) :=
  ⟨fun a b => Nat.le_total a.step b.step⟩

instance : IsTrans PlanStep (fun a b => a.step ≤ b.step) :=
  ⟨fun _ _ _ => Nat.le_trans⟩

theorem sortSteps_perm (l : List PlanStep) : List.Perm (sortSteps l) l :=
  List.perm_insertionSort _ l

theorem sortSteps_sorted (l : List PlanStep) :
    List.Sorted (fun a b => a.step ≤ b.step) (sortSteps l) :=
  List.sorted_insertionSort _ l

/-! ### Claim C1 -/

/-- Counterexample to claim C1: the step input `RESULT_abc` does not
match `RESULT_<digits>` after trimming, so per the claim it should pass
through to the tool call unchanged; instead `execute_tool_chain` treats
every input that starts with `RESULT_` as a reference, fails the store
lookup, and aborts the chain with no tool call at all. -/
theorem claim_C1_counterexample :
    (execute_tool_chain okHost "STEP 1: Use echo with input: RESULT_abc").outcome
        = .unresolvedRef "RESULT_abc" ∧
    (execute_tool_chain okHost "STEP 1: Use echo with input: RESULT_abc").calls = [] ∧
    (execute_tool_chain okHost "STEP 1: Use echo with input: RESULT_abc").calls
        ≠ [("echo", JsonV.str "RESULT_abc")] := by
  refine ⟨rfl, rfl, fun h => ?_⟩
  exact List.noConfusion
    (show ([] : List (String × JsonV)) = [("echo", JsonV.str "RESULT_abc")] from h)

/-- Claim C1 (amended): an input that does not start with the literal
prefix `RESULT_` — including inputs containing `RESULT_` elsewhere —
passes through to the tool call unchanged; an input that does start with
`RESULT_`, well-formed reference token or not, is looked up verbatim in
the store and, when absent, aborts the step with the
unresolved-reference error instead of passing through. -/
theorem claim_C1_passthrough :
    (∀ (store : Store) (input : String),
        pyStartsWith input "RESULT_" = false →
        resolveInput store input = .ok (.str input)) ∧
    (∀ (host : ToolHost) (st : PlanStep) (rest : List PlanStep) (store : Store)
        (fr : Option String) (calls : List (String × JsonV)),
        pyStartsWith st.input "RESULT_" = false →
        ∃ tl, (runLoop host (st :: rest) store fr calls).calls
            = calls ++ (st.tool, JsonV.str st.input) :: tl) ∧
    (∀ (store : Store) (input : String),
        pyStartsWith input "RESULT_" = true →
        store.lookup input = none →
        resolveInput store input = .error input) := by
  refine ⟨fun store input h => by simp [resolveInput, h], ?_,
    fun store input h hl => by simp [resolveInput, h, hl]⟩
  intro host st rest store fr calls h
  have hres : resolveInput store st.input = .ok (.str st.input) := by
    simp [resolveInput, h]
  cases hh : host st.tool (.str st.input) with
  | error m => exact ⟨[], by simp [runLoop, hres, hh]⟩
  | ok s =>
    obtain ⟨tl, htl⟩ := runLoop_calls_extend host rest
      (("RESULT_" ++ toString st.step, s) :: store) (some s)
      (calls ++ [(st.tool, .str st.input)])
    exact ⟨tl, by simp [runLoop, hres, hh, htl]⟩

/-- Witness for the amended claim C1 at concrete inputs: a literal input
containing `RESULT_` in the middle passes through; a malformed
`RESULT_`-prefixed input fails the lookup. -/
theorem claim_C1_witness :
    resolveInput [("RESULT_1", "hello")] "see RESULT_1 here"
        = .ok (.str "see RESULT_1 here") ∧
    resolveInput [] "RESULT_1 and more" = .error "RESULT_1 and more" :=
  ⟨claim_C1_passthrough.1 _ _ (by decide),
   claim_C1_passthrough.2.2 _ _ (by decide) rfl⟩

/-! ### Claim C2 -/

/-- Counterexample to claim C2: with a stored value that is a JSON
content envelope, the resolved input is the unwrapped `text` field, not
the stored value itself as the claim states. -/
theorem claim_C2_counterexample :
    resolveInput
        [("RESULT_1", "\x7b\"content\":[\x7b\"type\":\"text\",\"text\":\"olleh\"\x7d]\x7d")]
        "RESULT_1"
      = .ok (.str "olleh") ∧
    JsonV.str "olleh"
      ≠ JsonV.str "\x7b\"content\":[\x7b\"type\":\"text\",\"text\":\"olleh\"\x7d]\x7d" := by
  refine ⟨rfl, fun h => ?_⟩
  injection h with h2
  exact absurd h2 (by decide)

/-- Claim C2 (amended): a present entry resolves to the stored value
after payload unwrapping — which is the identity whenever the stored
value does not start, after trimming, with a brace — and a missing entry
aborts the chain at that step with the unresolved-reference error; the
remaining steps are not executed and the stored results are returned
untouched. -/
theorem claim_C2_resolution :
    (∀ (store : Store) (input v : String),
        pyStartsWith input "RESULT_" = true →
        store.lookup input = some v →
        resolveInput store input = .ok (tryUnwrap v)) ∧
    (∀ v : String, pyStartsWith (pyStrip v) "\x7b" = false → tryUnwrap v = .str v) ∧
    (∀ (host : ToolHost) (st : PlanStep) (rest : List PlanStep) (store : Store)
        (fr : Option String) (calls : List (String × JsonV)),
        pyStartsWith st.input "RESULT_" = true →
        store.lookup st.input = none →
        runLoop host (st :: rest) store fr calls =
          { outcome := .unresolvedRef st.input, results := store, calls := calls } ∧
        renderOutcome (ChainOutcome.unresolvedRef st.input)
          = "Error: Referenced result " ++ st.input ++ " not found") := by
  refine ⟨fun store input v h hl => by simp [resolveInput, h, hl],
    fun v h => by simp [tryUnwrap, h], ?_⟩
  intro host st rest store fr calls h hl
  have hres : resolveInput store st.input = .error st.input := by
    simp [resolveInput, h, hl]
  exact ⟨by simp [runLoop, hres], rfl⟩

/-- Witness for the amended claim C2: the spec's round-trip store
`{1: "hello"}`, and the empty-store failure aborting before any call. -/
theorem claim_C2_witness :
    resolveInput [("RESULT_1", "hello")] "RESULT_1" = .ok (.str "hello") ∧
    runLoop okHost [⟨2, "echo", "RESULT_1"⟩] [] none [] =
      { outcome := .unresolvedRef "RESULT_1", results := [], calls := [] } := by
  constructor
  · rw [claim_C2_resolution.1 [("RESULT_1", "hello")] "RESULT_1" "hello" (by decide) rfl,
      claim_C2_resolution.2.1 "hello" (by decide)]
  · exact (claim_C2_resolution.2.2 okHost ⟨2, "echo", "RESULT_1"⟩ [] [] none []
      (by decide) rfl).1

/-! ### Claim C3 -/

/-- Counterexample to claim C3: a failing call on step 7 with tool `foo`
returns the error string `Error executing foo: boom`, which names the
tool but nowhere contains the failing step number 7. -/
theorem claim_C3_counterexample :
    (execute_tool_chain boomHost "STEP 7: Use foo with input: bar").outcome
        = .toolError "foo" "boom" ∧
    renderOutcome (ChainOutcome.toolError "foo" "boom")
        = "Error executing foo: boom" ∧
    strHasSub "Error executing foo: boom" "7" = false := by
  exact ⟨rfl, rfl, by decide⟩

/-- Claim C3 (amended): when a step's remote call raises, the executor
aborts immediately at that step — the remaining steps are never invoked,
the stored results of earlier steps are kept untouched — and returns the
single error string `Error executing <tool>: <message>`, which names the
failing tool (the step number appears only in the log, not in the
returned error). -/
theorem claim_C3_abort (host : ToolHost) (st : PlanStep) (rest : List PlanStep)
    (store : Store) (fr : Option String) (calls : List (String × JsonV))
    (inp : JsonV) (msg : String)
    (hres : resolveInput store st.input = .ok inp)
    (hcall : host st.tool inp = .error msg) :
    runLoop host (st :: rest) store fr calls =
      { outcome := .toolError st.tool msg, results := store,
        calls := calls ++ [(st.tool, inp)] } ∧
    renderOutcome (ChainOutcome.toolError st.tool msg)
      = "Error executing " ++ st.tool ++ ": " ++ msg :=
  ⟨by simp [runLoop, hres, hcall], rfl⟩

/-- Witness for the amended claim C3: step 2 of a 2-step remainder fails;
step 3 is not invoked and the previously stored result survives. -/
theorem claim_C3_witness :
    runLoop boomHost [⟨2, "rev", "x"⟩, ⟨3, "rev", "y"⟩] [("RESULT_1", "prior")] none [] =
      { outcome := .toolError "rev" "boom", results := [("RESULT_1", "prior")],
        calls := [("rev", JsonV.str "x")] } :=
  (claim_C3_abort boomHost ⟨2, "rev", "x"⟩ [⟨3, "rev", "y"⟩] [("RESULT_1", "prior")]
    none [] (.str "x") "boom" rfl rfl).1

/-! ### Claim C4 -/

/-- Counterexample to claim C4: in the stored value
`{"content":[5,{"text":"good"}]}` the first content element carrying a
`text` field holds `good`, so per the claim the reference resolves to
`good`; instead the scan hits the leading `5`, where Python's
`"text" in item` raises `TypeError`, the exception handler keeps the
whole original string, and the candidate is not replaced. -/
theorem claim_C4_counterexample :
    parseJson "\x7b\"content\":[5,\x7b\"text\":\"good\"\x7d]\x7d"
      = some (.obj [("content", .arr [.num 5, .obj [("text", .str "good")]])]) ∧
    specFirstText [.num 5, .obj [("text", .str "good")]] = some (.str "good") ∧
    tryUnwrap "\x7b\"content\":[5,\x7b\"text\":\"good\"\x7d]\x7d"
      = .str "\x7b\"content\":[5,\x7b\"text\":\"good\"\x7d]\x7d" ∧
    JsonV.str "\x7b\"content\":[5,\x7b\"text\":\"good\"\x7d]\x7d" ≠ JsonV.str "good" := by
  refine ⟨rfl, rfl, rfl, fun h => ?_⟩
  injection h with h2
  exact absurd h2 (by decide)

/-- Claim C4 (amended): a candidate that trims to start with a brace and
parses as an object with a `content` list is replaced by the value the
item scan finds — the first item that is an object with a `text` key,
provided no earlier item makes the scan raise; a parse failure, a
missing shape, or a scan that raises or exhausts keeps the original
candidate, and a successfully looked-up reference always resolves
without a step failure. -/
theorem claim_C4_unwrap :
    (∀ v : String, pyStartsWith (pyStrip v) "\x7b" = true → parseJson v = none →
        tryUnwrap v = .str v) ∧
    (∀ (v : String) (kvs : List (String × JsonV)) (items : List JsonV) (t : JsonV),
        pyStartsWith (pyStrip v) "\x7b" = true →
        parseJson v = some (.obj kvs) →
        kvs.lookup "content" = some (.arr items) →
        scanContent items = .found t →
        tryUnwrap v = t) ∧
    (∀ (v : String) (kvs : List (String × JsonV)) (items : List JsonV),
        parseJson v = some (.obj kvs) →
        kvs.lookup "content" = some (.arr items) →
        (∀ t, scanContent items ≠ .found t) →
        tryUnwrap v = .str v) ∧
    (∀ (store : Store) (key v : String),
        pyStartsWith key "RESULT_" = true →
        store.lookup key = some v →
        resolveInput store key = .ok (tryUnwrap v)) := by
  refine ⟨fun v h hp => by simp [tryUnwrap, h, hp], ?_, ?_,
    fun store key v h hl => by simp [resolveInput, h, hl]⟩
  · intro v kvs items t h hp hc hs
    simp [tryUnwrap, h, hp, hc, hs]
  · intro v kvs items hp hc hs
    unfold tryUnwrap
    split
    · rw [hp]
      dsimp only
      rw [hc]
      dsimp only
      cases hsc : scanContent items with
      | found t => exact absurd hsc (hs t)
      | exhausted => rfl
      | raised => rfl
    · rfl

/-- Witness for the amended claim C4: the spec's unwrap example resolves
`{"content":[{"type":"text","text":"olleh"}]}` to `olleh`. -/
theorem claim_C4_witness :
    tryUnwrap "\x7b\"content\":[\x7b\"type\":\"text\",\"text\":\"olleh\"\x7d]\x7d"
      = .str "olleh" :=
  claim_C4_unwrap.2.1 _
    [("content", .arr [.obj [("type", .str "text"), ("text", .str "olleh")]])]
    [.obj [("type", .str "text"), ("text", .str "olleh")]] (.str "olleh")
    (by decide) rfl rfl rfl

/-! ### Claim C5 -/

/-- Counterexample to claim C5: the single line
`STEP: Use a with input: x STEP 1: Use foo with input: bar` does not
match the Format-A grammar (after `STEP` no integer follows), yet
because the source uses `re.search` after a `startswith("STEP")` gate,
the embedded occurrence later in the line yields a step — one step from
zero grammar-matching lines. -/
theorem claim_C5_counterexample :
    specGrammarLineCount "STEP: Use a with input: x STEP 1: Use foo with input: bar" = 0 ∧
    parsePlanSteps "STEP: Use a with input: x STEP 1: Use foo with input: bar"
      = [⟨1, "foo", "bar"⟩] := by
  exact ⟨rfl, by decide⟩

/-- Claim C5 (amended): every line matching the anchored Format-A
grammar yields exactly the step it declares (declared number, tool name,
trimmed input), and the executor orders steps ascending by step number
whatever the line order; but a line that starts with `STEP` and merely
contains the pattern later in the line also yields a step, so the parser
can produce more steps than there are grammar-matching lines. -/
theorem claim_C5_formatA :
    (∀ (line : List Char) (n : Nat) (t i : List Char),
        specFormatALine line = some (n, t, i) →
        parseLineChars line = some ⟨n, ⟨t⟩, ⟨listStrip i⟩⟩) ∧
    (∀ steps : List PlanStep,
        List.Sorted (fun a b => a.step ≤ b.step) (sortSteps steps) ∧
        List.Perm (sortSteps steps) steps) := by
  constructor
  · intro line n t i h
    rw [specFormatALine] at h
    have hpre := matchStepAt_isPre h
    have hpre2 : listIsPre ['S', 'T', 'E', 'P'] line = true := hpre
    have hsearch := searchStep_of_match h
    simp [parseLineChars, hpre2, hsearch]
  · exact fun steps => ⟨sortSteps_sorted steps, sortSteps_perm steps⟩

/-- Witness for the amended claim C5: a grammar-matching line with
padded input parses to its declared step with the input trimmed. -/
theorem claim_C5_witness :
    parseLineChars "STEP 4: Use rev with input:  padded  ".toList
      = some ⟨4, "rev", "padded"⟩ := by
  have h := claim_C5_formatA.1 "STEP 4: Use rev with input:  padded  ".toList
    4 "rev".toList "padded  ".toList rfl
  exact h

/-! ### Claim C6 -/

/-- Claim C6: a parsed Format-B response whose `fallback_response` is
present and truthy is returned directly, with no tool call, even when a
`steps` array is also present (the fallback test precedes the steps
branch). -/
theorem claim_C6_fallback (host : ToolHost) (raw : String) (rj fb : JsonV)
    (hparse : parseJson (pyStrip raw) = some rj)
    (hin : pyInJson "fallback_response" rj = .ok true)
    (hget : pyGetItem rj "fallback_response" = .ok fb)
    (htruthy : pyTruthy fb = true) :
    process_llm_response host raw = (fb, []) := by
  simp [process_llm_response, hparse, hin, hget, htruthy]

/-- Witness for claim C6: a response carrying both a non-empty fallback
and a non-empty steps array returns the fallback and performs no call. -/
theorem claim_C6_witness :
    process_llm_response okHost
      "\x7b\"fallback_response\":\"hi\",\"steps\":[\x7b\"step_number\":1,\"tool_name\":\"t\",\"input\":\"x\"\x7d]\x7d"
      = (.str "hi", []) :=
  claim_C6_fallback okHost _
    (.obj [("fallback_response", .str "hi"),
           ("steps", .arr [.obj [("step_number", .num 1), ("tool_name", .str "t"),
             ("input", .str "x")]])])
    (.str "hi") rfl rfl rfl rfl

/-! ### Claim C7 -/

/-- Counterexample to claim C7: on
`NO_TOOLS_NEEDED: echo NO_TOOLS_NEEDED: done` the claim predicts the
remainder after the leading prefix, trimmed —
`echo NO_TOOLS_NEEDED: done` — but `str.replace` removes every
occurrence of the token, so the code returns `echo  done`. -/
theorem claim_C7_counterexample :
    process_llm_response okHost "NO_TOOLS_NEEDED: echo NO_TOOLS_NEEDED: done"
      = (.str "echo  done", []) ∧
    pyStrip ⟨("NO_TOOLS_NEEDED: echo NO_TOOLS_NEEDED: done".toList).drop 16⟩
      = "echo NO_TOOLS_NEEDED: done" ∧
    ("echo  done" : String) ≠ "echo NO_TOOLS_NEEDED: done" := by
  exact ⟨rfl, rfl, by decide⟩

/-- Claim C7 (amended): when the planner output is not valid JSON and
its trimmed text starts with `NO_TOOLS_NEEDED:`, the orchestrator makes
no tool call and returns the text with every occurrence of the token
removed and the result trimmed — which coincides with the trimmed
remainder after the prefix exactly when the token occurs only once. -/
theorem claim_C7_escape (host : ToolHost) (raw : String)
    (hparse : parseJson (pyStrip raw) = none)
    (hpre : pyStartsWith (pyStrip raw) "NO_TOOLS_NEEDED:" = true) :
    process_llm_response host raw
      = (.str (pyStrip (pyRemoveAll (pyStrip raw) "NO_TOOLS_NEEDED:")), []) := by
  simp [process_llm_response, hparse, hpre]

/-- Witness for the amended claim C7: the single-occurrence case returns
the remainder trimmed. -/
theorem claim_C7_witness :
    process_llm_response okHost "NO_TOOLS_NEEDED: Sure, here is a fact."
      = (.str "Sure, here is a fact.", []) := by
  rw [claim_C7_escape okHost "NO_TOOLS_NEEDED: Sure, here is a fact." rfl rfl]
  rfl

/-! ### Claim C8 -/

/-- Counterexample to claim C8: a steps array whose first entry lacks
`step_number` does not skip that entry — the f-string field access
raises `KeyError`, the outer handler turns it into
`Error: 'step_number'`, and the well-formed second step is never
executed. -/
theorem claim_C8_counterexample :
    process_llm_response okHost
      "\x7b\"steps\":[\x7b\"tool_name\":\"foo\",\"input\":\"x\"\x7d,\x7b\"step_number\":2,\"tool_name\":\"bar\",\"input\":\"y\"\x7d]\x7d"
      = (.str "Error: 'step_number'", []) ∧
    (.str "Error: 'step_number'", ([] : List (String × JsonV)))
      ≠ ((.str "ok", [("bar", JsonV.str "y")]) : JsonV × List (String × JsonV)) := by
  refine ⟨rfl, fun h => ?_⟩
  have h2 := congrArg Prod.snd h
  exact List.noConfusion
    (show ([] : List (String × JsonV)) = [("bar", JsonV.str "y")] from h2)

/-- Claim C8 (amended): a Format-B steps array containing an entry that
is missing a required field makes the serialization loop raise; the
whole request aborts with `Error: <exception text>` and no step — not
even a well-formed one — is executed. -/
theorem claim_C8_malformed (host : ToolHost) (raw : String) (rj sv : JsonV)
    (m : String)
    (hparse : parseJson (pyStrip raw) = some rj)
    (hfb : pyInJson "fallback_response" rj = .ok false)
    (hin : pyInJson "steps" rj = .ok true)
    (hget : pyGetItem rj "steps" = .ok sv)
    (htruthy : pyTruthy sv = true)
    (hfmt : formatSteps sv = .error m) :
    process_llm_response host raw = (.str ("Error: " ++ m), []) := by
  simp [process_llm_response, stepsBranch, hparse, hfb, hin, hget, htruthy, hfmt]

/-- Witness for the amended claim C8: an entry missing `tool_name`
aborts the request with the `KeyError` text and no call. -/
theorem claim_C8_witness :
    process_llm_response okHost
      "\x7b\"steps\":[\x7b\"step_number\":1,\"input\":\"x\"\x7d]\x7d"
      = (.str "Error: 'tool_name'", []) :=
  claim_C8_malformed okHost _
    (.obj [("steps", .arr [.obj [("step_number", .num 1), ("input", .str "x")]])])
    (.arr [.obj [("step_number", .num 1), ("input", .str "x")]])
    "'tool_name'" rfl rfl rfl rfl rfl rfl

/-! ### Claim C9 -/

/-- Counterexample to claim C9: a plan with two steps both numbered 1 is
neither rejected nor reduced to a single step — the parser keeps both
and the executor invokes both tools (in input order among equal step
numbers). -/
theorem claim_C9_counterexample :
    parsePlanSteps "STEP 1: Use foo with input: a\nSTEP 1: Use bar with input: b"
      = [⟨1, "foo", "a"⟩, ⟨1, "bar", "b"⟩] ∧
    (execute_tool_chain okHost
        "STEP 1: Use foo with input: a\nSTEP 1: Use bar with input: b").calls
      = [("foo", JsonV.str "a"), ("bar", JsonV.str "b")] ∧
    (execute_tool_chain okHost
        "STEP 1: Use foo with input: a\nSTEP 1: Use bar with input: b").outcome
      = .success "ok" := by
  exact ⟨by decide, rfl, rfl⟩

/-- Claim C9 (amended): duplicate step numbers are not a parse error —
whenever every parsed input is literal and every call succeeds, the
executor performs exactly one tool invocation per parsed step, duplicate
numbers included. -/
theorem claim_C9_duplicates (host : ToolHost) (text : String)
    (hlit : ∀ st ∈ parsePlanSteps text, pyStartsWith st.input "RESULT_" = false)
    (hok : ∀ t i, ∃ s, host t i = Except.ok s) :
    (execute_tool_chain host text).calls.length = (parsePlanSteps text).length := by
  simp only [execute_tool_chain]
  cases hemp : (parsePlanSteps text).isEmpty with
  | true =>
    rw [List.isEmpty_iff] at hemp
    simp [hemp]
  | false =>
    simp only [Bool.false_eq_true, if_false]
    have hlit2 : ∀ st ∈ sortSteps (parsePlanSteps text),
        pyStartsWith st.input "RESULT_" = false := fun st hst =>
      hlit st ((sortSteps_perm (parsePlanSteps text)).mem_iff.mp hst)
    rw [runLoop_all_ok_length host _ hlit2 hok [] none []]
    simp [(sortSteps_perm (parsePlanSteps text)).length_eq]

/-- Witness for the amended claim C9: both duplicate-numbered steps of
the counterexample plan are invoked, one call per parsed step. -/
theorem claim_C9_witness :
    (execute_tool_chain okHost
        "STEP 1: Use foo with input: a\nSTEP 1: Use bar with input: b").calls.length
      = (parsePlanSteps
        "STEP 1: Use foo with input: a\nSTEP 1: Use bar with input: b").length :=
  claim_C9_duplicates okHost _ (by decide) (fun _ _ => ⟨"ok", rfl⟩)

/-! ### Claim C10 -/

/-- Claim C10: the Format-B execution path factors through Format-A —
the steps executed are exactly those of the re-parsed serialization
`STEP <step_number>: Use <tool_name> with input: <input>` joined by
newlines; and since every re-parsed step has a word-character tool name
and a newline-free input, an entry whose tool name holds another
character or whose input holds a newline is never executed as itself. -/
theorem claim_C10_refinement :
    (∀ (host : ToolHost) (raw : String) (rj sv : JsonV) (lines : List String),
        parseJson (pyStrip raw) = some rj →
        pyInJson "fallback_response" rj = .ok false →
        pyInJson "steps" rj = .ok true →
        pyGetItem rj "steps" = .ok sv →
        pyTruthy sv = true →
        formatSteps sv = .ok lines →
        process_llm_response host raw =
          (chainReturn (execute_tool_chain host (String.intercalate "\n" lines)).outcome,
           (execute_tool_chain host (String.intercalate "\n" lines)).calls)) ∧
    (∀ (kvs : List (String × JsonV)) (nv tv iv : JsonV),
        kvs.lookup "step_number" = some nv →
        kvs.lookup "tool_name" = some tv →
        kvs.lookup "input" = some iv →
        formatLine (.obj kvs) =
          .ok ("STEP " ++ pyStr nv ++ ": Use " ++ pyStr tv ++ " with input: " ++ pyStr iv)) ∧
    (∀ (text : String) (st : PlanStep), st ∈ parsePlanSteps text →
        (∀ c ∈ st.tool.toList, isWordChar c = true) ∧ '\n' ∉ st.input.toList) ∧
    (∀ (text toolName input : String) (st : PlanStep),
        st ∈ parsePlanSteps text →
        ((∃ c ∈ toolName.toList, isWordChar c = false) ∨ '\n' ∈ input.toList) →
        ¬(st.tool = toolName ∧ st.input = input)) := by
  refine ⟨?_, ?_, fun text st h => parsePlanSteps_shape h, ?_⟩
  · intro host raw rj sv lines hparse hfb hin hget htruthy hfmt
    simp [process_llm_response, stepsBranch, hparse, hfb, hin, hget, htruthy, hfmt]
  · intro kvs nv tv iv hn ht hi
    unfold formatLine
    rw [show pyGetItem (.obj kvs) "step_number" = .ok nv by simp [pyGetItem, hn],
      show pyGetItem (.obj kvs) "tool_name" = .ok tv by simp [pyGetItem, ht],
      show pyGetItem (.obj kvs) "input" = .ok iv by simp [pyGetItem, hi]]
    rfl
  · intro text toolName input st hmem hbad ⟨htool, hinput⟩
    obtain ⟨hword, hnl⟩ := parsePlanSteps_shape hmem
    rcases hbad with ⟨c, hc, hcw⟩ | hnl2
    · exact absurd (hword c (htool ▸ hc)) (by simp [hcw])
    · exact hnl (hinput ▸ hnl2)

/-- Witness for claim C10: the single-entry Format-B plan executes
exactly the re-parsed serialized line against the reversal host. -/
theorem claim_C10_witness :
    process_llm_response reverseHost
      "\x7b\"steps\":[\x7b\"step_number\":1,\"tool_name\":\"reverse_string\",\"input\":\"Hello World\"\x7d]\x7d"
      = (.str "dlroW olleH", [("reverse_string", .str "Hello World")]) := by
  rw [claim_C10_refinement.1 reverseHost
    "\x7b\"steps\":[\x7b\"step_number\":1,\"tool_name\":\"reverse_string\",\"input\":\"Hello World\"\x7d]\x7d"
    (.obj [("steps", .arr [.obj [("step_number", .num 1),
      ("tool_name", .str "reverse_string"), ("input", .str "Hello World")]])])
    (.arr [.obj [("step_number", .num 1), ("tool_name", .str "reverse_string"),
      ("input", .str "Hello World")]])
    ["STEP 1: Use reverse_string with input: Hello World"]
    rfl rfl rfl rfl rfl rfl]
  rfl

end Talk2MCP
